import Mathlib

/-!
Verification of the sandbox orchestration engine ("cage"/"packnplay") against
its specification.  The Go sources are shallowly embedded: pure string and
list manipulation is translated directly; process execution, the filesystem
and the host environment are passed explicitly as state records; Go maps are
modelled as association lists with in-place update, and the (randomized)
iteration order of a Go `range` over a map is an explicit extra argument.
-/

namespace GoStr

/-- Embedding of Go `strings.ReplaceAll(s, old, new)` for the single-character
patterns used by the sources: every occurrence of `old` is replaced by `new`. -/
def replaceAllChar (old new : Char) : List Char → List Char
  | [] => []
  | c :: cs => (if c = old then new else c) :: replaceAllChar old new cs

/-- Splits a character list at its first `=`. -/
def splitCharsOnEq : List Char → Option (List Char × List Char)
  | [] => none
  | c :: cs =>
    if c = '=' then some ([], cs)
    else
      match splitCharsOnEq cs with
      | some kv => some (c :: kv.1, kv.2)
      | none => none

/-- Embedding of Go `strings.SplitN(s, "=", 2)`: `none` when `s` has no `=`,
otherwise the part before the first `=` and everything after it. -/
def splitOnceOnEq (s : String) : Option (String × String) :=
  (splitCharsOnEq s.data).map (fun kv => (String.mk kv.1, String.mk kv.2))

/-- Embedding of Go `strings.Contains(s, "=")`. -/
def containsEq (s : String) : Bool := s.data.any (· = '=')

/-- Embedding of Go `strings.Contains(s, " ")`. -/
def containsSpace (s : String) : Bool := s.data.any (· = ' ')

/-- Embedding of Go `strings.HasPrefix`. -/
def hasPrefix (s pre : String) : Bool := pre.data.isPrefixOf s.data

end GoStr

namespace GoPath

/-- Embedding of Go `path/filepath.Base` on a Unix host: strip trailing
separators, then keep everything after the last separator; `""` gives `"."`
and an all-separator path gives `"/"`. -/
def base (path : String) : String :=
  if path = "" then "."
  else
    let stripped := (path.data.reverse.dropWhile (· = '/')).reverse
    let last := (stripped.reverse.takeWhile (· ≠ '/')).reverse
    if stripped = [] then "/"
    else String.mk last

end GoPath

namespace container

/-- From `pkg/container`: converts a name to docker-compatible format by
replacing `/`, then spaces, then `:` with `-`. -/
def sanitizeName (name : String) : String :=
  let n1 := GoStr.replaceAllChar '/' '-' name.data
  let n2 := GoStr.replaceAllChar ' ' '-' n1
  let n3 := GoStr.replaceAllChar ':' '-' n2
  String.mk n3

/-- From `pkg/container`: container name
`cage-<basename(projectPath)>-<sanitized(worktreeName)>`. -/
def GenerateContainerName (projectPath worktreeName : String) : String :=
  let projectName := GoPath.base projectPath
  let sanitizedWorktree := sanitizeName worktreeName
  "cage-" ++ projectName ++ "-" ++ sanitizedWorktree

/-- From `pkg/container`: the label set of a managed container, as the
association list written in the source. -/
def GenerateLabels (projectName worktreeName : String) : List (String × String) :=
  [("managed-by", "cage"),
   ("cage-project", projectName),
   ("cage-worktree", worktreeName)]

/-- From `pkg/container`: converts the label map to `--label k=v` arguments;
the iteration order of the Go map is the order of the list. -/
def LabelsToArgs (labels : List (String × String)) : List String :=
  labels.foldl (fun args kv => args ++ ["--label", kv.1 ++ "=" ++ kv.2]) []

end container

namespace git

/-- From `pkg/git`: converts a branch name to a filesystem-safe name by
replacing `/`, then `:`, then spaces with `-`. -/
def sanitizeBranchName (name : String) : String :=
  let n1 := GoStr.replaceAllChar '/' '-' name.data
  let n2 := GoStr.replaceAllChar ':' '-' n1
  let n3 := GoStr.replaceAllChar ' ' '-' n2
  String.mk n3

end git

namespace config

/-- A JSON value, the document model for `config.json`.  Objects keep their
fields in file order. -/
inductive Json where
  | null : Json
  | bool (b : Bool) : Json
  | num (n : Int) : Json
  | str (s : String) : Json
  | arr (xs : List Json) : Json
  | obj (fields : List (String × Json)) : Json

/-- Field lookup in a JSON object body, first occurrence
(Go `encoding/json` keeps the last duplicate; the inputs used here have
unique keys, where the two coincide). -/
def getField (fields : List (String × Json)) (key : String) : Option Json :=
  (fields.find? (fun kv => kv.1 = key)).map (fun kv => kv.2)

/-- From `pkg/config`: `Credentials` specifies which credentials to mount. -/
structure Credentials where
  Git : Bool
  SSH : Bool
  GH : Bool
  GPG : Bool
  NPM : Bool
  AWS : Bool
deriving DecidableEq, Repr

/-- From `pkg/config`: `DefaultContainerConfig`. -/
structure DefaultContainerConfig where
  Image : String
  CheckForUpdates : Bool
  AutoPullUpdates : Bool
  CheckFrequencyHours : Int
deriving DecidableEq, Repr

/-- From `pkg/config`: `EnvConfig` defines environment variables for
different setups. -/
structure EnvConfig where
  Name : String
  Description : String
  EnvVars : List (String × String)
deriving DecidableEq, Repr

/-- From `pkg/config`: the `Config` struct.  Exactly these six fields carry
JSON tags; `encoding/json` round-trips only them. -/
structure Config where
  ContainerRuntime : String
  DefaultImage : String
  DefaultCredentials : Credentials
  DefaultEnvVars : List String
  EnvConfigs : List (String × EnvConfig)
  DefaultContainer : DefaultContainerConfig
deriving DecidableEq, Repr

/-- Go zero value of `Credentials`. -/
def Credentials.zero : Credentials :=
  ⟨false, false, false, false, false, false⟩

/-- Go zero value of `DefaultContainerConfig`. -/
def DefaultContainerConfig.zero : DefaultContainerConfig :=
  ⟨"", false, false, 0⟩

/-- From `pkg/config`: `GetDefaultContainerConfig`. -/
def GetDefaultContainerConfig : DefaultContainerConfig :=
  ⟨"ghcr.io/obra/packnplay-default:latest", true, false, 24⟩

/-- `encoding/json` unmarshalling of a `bool` field: absent keeps the zero
value, a non-bool value is a type error. -/
def decodeBoolField (fields : List (String × Json)) (key : String) :
    Option Bool :=
  match getField fields key with
  | none => some false
  | some (Json.bool b) => some b
  | some _ => none

/-- `encoding/json` unmarshalling of a `string` field. -/
def decodeStrField (fields : List (String × Json)) (key : String) :
    Option String :=
  match getField fields key with
  | none => some ""
  | some (Json.str s) => some s
  | some _ => none

/-- `encoding/json` unmarshalling of an `int` field. -/
def decodeIntField (fields : List (String × Json)) (key : String) :
    Option Int :=
  match getField fields key with
  | none => some 0
  | some (Json.num n) => some n
  | some _ => none

/-- `encoding/json` unmarshalling into `Credentials`: unknown keys are
ignored, absent keys keep the zero value. -/
def decodeCredentials (j : Json) : Option Credentials :=
  match j with
  | Json.obj fields => do
      let git ← decodeBoolField fields "git"
      let ssh ← decodeBoolField fields "ssh"
      let gh ← decodeBoolField fields "gh"
      let gpg ← decodeBoolField fields "gpg"
      let npm ← decodeBoolField fields "npm"
      let aws ← decodeBoolField fields "aws"
      pure ⟨git, ssh, gh, gpg, npm, aws⟩
  | _ => none

/-- `encoding/json` unmarshalling into `DefaultContainerConfig`. -/
def decodeDefaultContainer (j : Json) : Option DefaultContainerConfig :=
  match j with
  | Json.obj fields => do
      let image ← decodeStrField fields "image"
      let check ← decodeBoolField fields "check_for_updates"
      let auto ← decodeBoolField fields "auto_pull_updates"
      let freq ← decodeIntField fields "check_frequency_hours"
      pure ⟨image, check, auto, freq⟩
  | _ => none

/-- `encoding/json` unmarshalling of a `[]string` field. -/
def decodeStrList (j : Json) : Option (List String) :=
  match j with
  | Json.arr xs => xs.mapM (fun x => match x with
      | Json.str s => some s
      | _ => none)
  | _ => none

/-- `encoding/json` unmarshalling of a `map[string]string` field. -/
def decodeStrMap (j : Json) : Option (List (String × String)) :=
  match j with
  | Json.obj fields => fields.mapM (fun kv => match kv.2 with
      | Json.str s => some (kv.1, s)
      | _ => none)
  | _ => none

/-- `encoding/json` unmarshalling into `EnvConfig`. -/
def decodeEnvConfig (j : Json) : Option EnvConfig :=
  match j with
  | Json.obj fields => do
      let name ← decodeStrField fields "name"
      let descr ← decodeStrField fields "description"
      let envVars ← match getField fields "env_vars" with
        | none => some []
        | some v => decodeStrMap v
      pure ⟨name, descr, envVars⟩
  | _ => none

/-- `encoding/json` unmarshalling into `map[string]EnvConfig`. -/
def decodeEnvConfigs (j : Json) : Option (List (String × EnvConfig)) :=
  match j with
  | Json.obj fields => fields.mapM (fun kv =>
      (decodeEnvConfig kv.2).map (fun e => (kv.1, e)))
  | _ => none

/-- From `pkg/config` `LoadConfigFromFile`: `json.Unmarshal(data, &cfg)`
into the typed `Config` struct.  Only the six tagged fields are read;
every other field of the document is ignored. -/
def LoadConfigFromFile (fields : List (String × Json)) : Option Config := do
  let runtime ← decodeStrField fields "container_runtime"
  let defaultImage ← decodeStrField fields "default_image"
  let creds ← match getField fields "default_credentials" with
    | none => some Credentials.zero
    | some v => decodeCredentials v
  let envVars ← match getField fields "default_env_vars" with
    | none => some []
    | some Json.null => some []
    | some v => decodeStrList v
  let envConfigs ← match getField fields "env_configs" with
    | none => some []
    | some Json.null => some []
    | some v => decodeEnvConfigs v
  let defaultContainer ← match getField fields "default_container" with
    | none => some DefaultContainerConfig.zero
    | some v => decodeDefaultContainer v
  pure ⟨runtime, defaultImage, creds, envVars, envConfigs, defaultContainer⟩

/-- From `pkg/config` `LoadExistingOrEmpty`: a missing file yields the empty
config with defaults, otherwise the file is parsed as a `Config`. -/
def LoadExistingOrEmpty (file : Option (List (String × Json))) :
    Option Config :=
  match file with
  | none => some
      { ContainerRuntime := ""
        DefaultImage := ""
        DefaultCredentials := Credentials.zero
        DefaultEnvVars := []
        EnvConfigs := []
        DefaultContainer := GetDefaultContainerConfig }
  | some fields => LoadConfigFromFile fields

/-- `json.Marshal` of `Credentials`: all six tagged fields, struct order. -/
def marshalCredentials (c : Credentials) : Json :=
  Json.obj
    [("git", Json.bool c.Git), ("ssh", Json.bool c.SSH),
     ("gh", Json.bool c.GH), ("gpg", Json.bool c.GPG),
     ("npm", Json.bool c.NPM), ("aws", Json.bool c.AWS)]

/-- `json.Marshal` of `DefaultContainerConfig`. -/
def marshalDefaultContainer (d : DefaultContainerConfig) : Json :=
  Json.obj
    [("image", Json.str d.Image),
     ("check_for_updates", Json.bool d.CheckForUpdates),
     ("auto_pull_updates", Json.bool d.AutoPullUpdates),
     ("check_frequency_hours", Json.num d.CheckFrequencyHours)]

/-- `json.Marshal` of `EnvConfig`. -/
def marshalEnvConfig (e : EnvConfig) : Json :=
  Json.obj
    [("name", Json.str e.Name), ("description", Json.str e.Description),
     ("env_vars", Json.obj (e.EnvVars.map (fun kv => (kv.1, Json.str kv.2))))]

/-- From `pkg/config` `SaveConfig`: `json.MarshalIndent(cfg, ...)` writes
exactly the struct's six tagged fields, in struct order.  Fields of the
original file that the struct does not model cannot appear here. -/
def SaveConfig (cfg : Config) : List (String × Json) :=
  [("container_runtime", Json.str cfg.ContainerRuntime),
   ("default_image", Json.str cfg.DefaultImage),
   ("default_credentials", marshalCredentials cfg.DefaultCredentials),
   ("default_env_vars", Json.arr (cfg.DefaultEnvVars.map Json.str)),
   ("env_configs", Json.obj (cfg.EnvConfigs.map
      (fun kv => (kv.1, marshalEnvConfig kv.2)))),
   ("default_container", marshalDefaultContainer cfg.DefaultContainer)]

/-- From `pkg/config`: `ConfigUpdates` represents partial config updates. -/
structure ConfigUpdates where
  ContainerRuntime : Option String
  DefaultCredentials : Option Credentials
  DefaultContainer : Option DefaultContainerConfig

/-- From `pkg/config` `UpdateConfigSafely`: load the existing file into the
typed struct, overwrite the fields named by `updates`, and save the struct
back.  The result is the new content of the file; `none` models the
load-failure error return. -/
def UpdateConfigSafely (file : Option (List (String × Json)))
    (updates : ConfigUpdates) : Option (List (String × Json)) := do
  let cfg ← LoadExistingOrEmpty file
  let cfg := match updates.ContainerRuntime with
    | some r => { cfg with ContainerRuntime := r }
    | none => cfg
  let cfg := match updates.DefaultCredentials with
    | some c => { cfg with DefaultCredentials := c }
    | none => cfg
  let cfg := match updates.DefaultContainer with
    | some d => { cfg with DefaultContainer := d }
    | none => cfg
  pure (SaveConfig cfg)

end config

namespace aws

/-- From `pkg/aws`: temporary AWS credentials in the `credential_process`
output format.  An absent JSON field unmarshals to the empty string
(resp. `0` for `Version`). -/
structure AWSCredentials where
  AccessKeyID : String
  SecretAccessKey : String
  SessionToken : String
  Expiration : String
  Version : Int
deriving DecidableEq, Repr

/-- Outcome of running a child process under a deadline:
the deadline fired, the command failed (non-zero exit or exec error,
with its combined output), or it succeeded with its combined output. -/
inductive ProcOutcome where
  | timeout : ProcOutcome
  | exitErr (output : String) : ProcOutcome
  | success (output : String) : ProcOutcome
deriving DecidableEq, Repr

/-- The host facilities `GetCredentialsFromProcess` uses: `run cmd secs`
models `exec.CommandContext` of `sh -c cmd` under a `secs`-second
`context.WithTimeout`, and `decode` models `json.Unmarshal` of the
captured stdout into `AWSCredentials`. -/
structure ShellEnv where
  run : String → Nat → ProcOutcome
  decode : String → Option AWSCredentials

/-- From `pkg/aws` `GetCredentialsFromProcess`: execute the
`credential_process` directive through a shell with a 30-second timeout,
parse stdout as JSON and require `AccessKeyId` and `SecretAccessKey`. -/
def GetCredentialsFromProcess (env : ShellEnv) (credentialProcess : String) :
    Except String AWSCredentials :=
  if credentialProcess = "" then Except.error "empty credential_process"
  else
    match env.run credentialProcess 30 with
    | ProcOutcome.timeout =>
        Except.error "credential_process timed out after 30 seconds"
    | ProcOutcome.exitErr output =>
        Except.error ("credential_process failed: " ++ output)
    | ProcOutcome.success output =>
        match env.decode output with
        | none =>
            Except.error
              ("failed to parse credential_process JSON output: " ++ output)
        | some creds =>
            if creds.AccessKeyID = "" then
              Except.error
                "credential_process output missing required field AccessKeyId"
            else if creds.SecretAccessKey = "" then
              Except.error
                "credential_process output missing required field SecretAccessKey"
            else Except.ok creds

/-- From `pkg/aws` `GetAWSEnvVars`: the excluded container-metadata
variables. -/
def excludeVars : List String :=
  ["AWS_CONTAINER_CREDENTIALS_RELATIVE_URI",
   "AWS_CONTAINER_CREDENTIALS_FULL_URI",
   "AWS_CONTAINER_AUTHORIZATION_TOKEN"]

/-- Go map insertion on an association list: replace in place if the key is
present, append otherwise. -/
def upsert (m : List (String × String)) (k v : String) :
    List (String × String) :=
  if m.any (fun kv => kv.1 = k) then
    m.map (fun kv => if kv.1 = k then (k, v) else kv)
  else m ++ [(k, v)]

/-- Go map lookup `m[k]` in value position (missing key yields `""`). -/
def mapIndex (m : List (String × String)) (k : String) : String :=
  match m.find? (fun kv => kv.1 = k) with
  | some kv => kv.2
  | none => ""

/-- From `pkg/aws` `GetAWSEnvVars`: all `AWS_*` variables of the host
environment (a list of `KEY=VALUE` strings), excluding the container
metadata blocklist, collected into a map. -/
def GetAWSEnvVars (environ : List String) : List (String × String) :=
  environ.foldl
    (fun m env =>
      if GoStr.hasPrefix env "AWS_" then
        match GoStr.splitOnceOnEq env with
        | some (key, value) =>
            if excludeVars.contains key then m else upsert m key value
        | none => m
      else m)
    []

/-- From `pkg/aws` `HasStaticCredentials`: both `AWS_ACCESS_KEY_ID` and
`AWS_SECRET_ACCESS_KEY` are set on the host.  `getenv` returns `""` for an
unset variable, as `os.Getenv` does. -/
def HasStaticCredentials (getenv : String → String) : Bool :=
  getenv "AWS_ACCESS_KEY_ID" ≠ "" && getenv "AWS_SECRET_ACCESS_KEY" ≠ ""

end aws

namespace runner

/-- The host facilities `Run` consults while building the invocation:
environment variables (`""` for unset, as `os.Getenv`), the raw environment
(`KEY=VALUE` strings, as `os.Environ`), file existence and size (`os.Stat`),
and symlink resolution (`filepath.EvalSymlinks`, `none` on error). -/
structure HostEnv where
  getenv : String → String
  environ : List String
  fileExists : String → Bool
  fileSize : String → Int
  evalSymlinks : String → Option String

/-- From `pkg/runner` `Run`: Linux detection,
`os.Getenv("OSTYPE") == "linux-gnu" || fileExists("/proc/version")`. -/
def isLinux (h : HostEnv) : Bool :=
  h.getenv "OSTYPE" == "linux-gnu" || h.fileExists "/proc/version"

/-- The inputs of `Run`'s invocation construction, resolved by the earlier
steps of `Run`: paths and names, the selected runtime command, the parsed
devcontainer data, toggles and flags, and the oracles for the AWS config
parse and the credential process. -/
structure RunParams where
  homeDir : String
  remoteUser : String
  mountPath : String
  mainRepoGitDir : String
  containerName : String
  credentialFile : String
  projectName : String
  devImage : String
  devDockerFile : String
  runtimeCmd : String
  labels : List (String × String)
  credentials : config.Credentials
  defaultEnvVars : List String
  userEnv : List String
  publishPorts : List String
  command : List String
  awsConfigParse : Except String String
  shell : aws.ShellEnv
  awsIterOrder : List String

/-- `filepath.Join(homeDir, ".claude", ".credentials.json")`. -/
def hostCredFile (p : RunParams) : String :=
  p.homeDir ++ "/.claude/.credentials.json"

/-- From `pkg/runner` `Run`: the host has meaningful Claude credentials iff
the file exists and its size is at least 20 bytes. -/
def hostHasCredentials (h : HostEnv) (p : RunParams) : Bool :=
  h.fileExists (hostCredFile p) && h.fileSize (hostCredFile p) ≥ 20

/-- From `pkg/runner` `Run`: the credential overlay is used exactly when the
host has no meaningful credentials. -/
def needsCredentialOverlay (h : HostEnv) (p : RunParams) : Bool :=
  ! hostHasCredentials h p

/-- From `pkg/runner` `Run`: Apple Container detection for the `-d`/`-it`
combination. -/
def isApple (h : HostEnv) (p : RunParams) : Bool :=
  p.homeDir ≠ "" && ! isLinux h && p.runtimeCmd == "container"

/-- `run -d` base arguments (no `-it` on Apple Container). -/
def baseArgs (h : HostEnv) (p : RunParams) : List String :=
  if isApple h p then ["run", "-d"] else ["run", "-d", "-it"]

/-- `--name <containerName>`. -/
def nameArgs (p : RunParams) : List String := ["--name", p.containerName]

/-- `~/.claude` mounted read-write at the remote user's home. -/
def claudeMountSeg (p : RunParams) : List String :=
  ["-v", p.homeDir ++ "/.claude:/home/" ++ p.remoteUser ++ "/.claude"]

/-- The credential-file overlay mount, emitted after the `.claude`
directory mount exactly when the overlay is needed. -/
def overlaySeg (h : HostEnv) (p : RunParams) : List String :=
  if needsCredentialOverlay h p then
    ["-v", p.credentialFile ++ ":/home/" ++ p.remoteUser ++
      "/.claude/.credentials.json"]
  else []

/-- The worktree mounted at its own host path (host-path preservation). -/
def worktreeMountSeg (p : RunParams) : List String :=
  ["-v", p.mountPath ++ ":" ++ p.mountPath]

/-- The fixed list of per-agent configuration directories. -/
def agentConfigDirs : List String :=
  [".codex", ".gemini", ".copilot", ".qwen", ".cursor", ".deepseek"]

/-- Agent config directories mounted read-write when present on the host. -/
def agentMountSeg (h : HostEnv) (p : RunParams) : List String :=
  agentConfigDirs.foldl
    (fun args configDir =>
      let agentPath := p.homeDir ++ "/" ++ configDir
      if h.fileExists agentPath then
        args ++ ["-v", agentPath ++ ":/home/" ++ p.remoteUser ++ "/" ++
          configDir]
      else args)
    []

/-- `~/.config/amp` mounted when present. -/
def ampMountSeg (h : HostEnv) (p : RunParams) : List String :=
  let ampConfigPath := p.homeDir ++ "/.config/amp"
  if h.fileExists ampConfigPath then
    ["-v", ampConfigPath ++ ":/home/" ++ p.remoteUser ++ "/.config/amp"]
  else []

/-- The main repository's `.git` directory mounted at its own path when a
worktree is used (`mainRepoGitDir` empty means no worktree). -/
def gitDirMountSeg (p : RunParams) : List String :=
  if p.mainRepoGitDir ≠ "" then
    ["-v", p.mainRepoGitDir ++ ":" ++ p.mainRepoGitDir]
  else []

/-- `resolveMountPath` with fallback: symlinks resolved, original path kept
on resolution failure. -/
def resolveOrSelf (h : HostEnv) (path : String) : String :=
  match h.evalSymlinks path with
  | some resolved => resolved
  | none => path

/-- `~/.gitconfig` mounted read-only (symlink-resolved) when the git
credential category is enabled and the file exists. -/
def gitcfgMountSeg (h : HostEnv) (p : RunParams) : List String :=
  if p.credentials.Git then
    let gitconfigPath := p.homeDir ++ "/.gitconfig"
    if h.fileExists gitconfigPath then
      ["-v", resolveOrSelf h gitconfigPath ++ ":/home/" ++ p.remoteUser ++
        "/.gitconfig:ro"]
    else []
  else []

/-- `~/.ssh` mounted read-only when enabled and present. -/
def sshMountSeg (h : HostEnv) (p : RunParams) : List String :=
  if p.credentials.SSH then
    let sshPath := p.homeDir ++ "/.ssh"
    if h.fileExists sshPath then
      ["-v", sshPath ++ ":/home/" ++ p.remoteUser ++ "/.ssh:ro"]
    else []
  else []

/-- `~/.config/gh` mounted when enabled, present, and the host is Linux
(on macOS the source notes gh credentials come from the keychain). -/
def ghMountSeg (h : HostEnv) (p : RunParams) : List String :=
  if p.credentials.GH && isLinux h then
    let ghConfigPath := p.homeDir ++ "/.config/gh"
    if h.fileExists ghConfigPath then
      ["-v", ghConfigPath ++ ":/home/" ++ p.remoteUser ++ "/.config/gh"]
    else []
  else []

/-- `~/.gnupg` mounted read-only when enabled and present. -/
def gpgMountSeg (h : HostEnv) (p : RunParams) : List String :=
  if p.credentials.GPG then
    let gnupgPath := p.homeDir ++ "/.gnupg"
    if h.fileExists gnupgPath then
      ["-v", gnupgPath ++ ":/home/" ++ p.remoteUser ++ "/.gnupg:ro"]
    else []
  else []

/-- `~/.npmrc` mounted read-only (symlink-resolved) when enabled and
present. -/
def npmMountSeg (h : HostEnv) (p : RunParams) : List String :=
  if p.credentials.NPM then
    let npmrcPath := p.homeDir ++ "/.npmrc"
    if h.fileExists npmrcPath then
      ["-v", resolveOrSelf h npmrcPath ++ ":/home/" ++ p.remoteUser ++
        "/.npmrc:ro"]
    else []
  else []

/-- From `pkg/runner` `Run`, the `credential_process` success branch: the
map holds the three obtained credentials (`AWS_SESSION_TOKEN` only when the
process provided one) plus every non-credential `AWS_*` host variable. -/
def credProcessMap (h : HostEnv) (creds : aws.AWSCredentials) :
    List (String × String) :=
  let m := aws.upsert [] "AWS_ACCESS_KEY_ID" creds.AccessKeyID
  let m := aws.upsert m "AWS_SECRET_ACCESS_KEY" creds.SecretAccessKey
  let m := if creds.SessionToken ≠ "" then
      aws.upsert m "AWS_SESSION_TOKEN" creds.SessionToken
    else m
  (aws.GetAWSEnvVars h.environ).foldl
    (fun m kv =>
      if kv.1 ≠ "AWS_ACCESS_KEY_ID" && kv.1 ≠ "AWS_SECRET_ACCESS_KEY" &&
         kv.1 ≠ "AWS_SESSION_TOKEN" then
        aws.upsert m kv.1 kv.2
      else m)
    m

/-- From `pkg/runner` `Run`: the AWS credential resolution, in priority
order — static environment credentials, then `credential_process` when
`AWS_PROFILE` is set (a config-parse or process failure only warns and
falls through to the environment), then the environment fallback.
Returns the `awsCredentials` map. -/
def resolveAwsCredentials (h : HostEnv) (p : RunParams) :
    List (String × String) :=
  if aws.HasStaticCredentials h.getenv then aws.GetAWSEnvVars h.environ
  else if h.getenv "AWS_PROFILE" ≠ "" then
    match p.awsConfigParse with
    | Except.error _ => aws.GetAWSEnvVars h.environ
    | Except.ok credentialProcess =>
        match aws.GetCredentialsFromProcess p.shell credentialProcess with
        | Except.error _ => aws.GetAWSEnvVars h.environ
        | Except.ok creds => credProcessMap h creds
  else aws.GetAWSEnvVars h.environ

/-- `~/.aws` mounted read-write when the AWS category is enabled and the
directory exists (a missing directory only warns). -/
def awsMountSeg (h : HostEnv) (p : RunParams) : List String :=
  if p.credentials.AWS then
    let awsPath := p.homeDir ++ "/.aws"
    if h.fileExists awsPath then
      ["-v", awsPath ++ ":/home/" ++ p.remoteUser ++ "/.aws"]
    else []
  else []

/-- `-w <mountPath>`: the working directory is the host path. -/
def workdirSeg (p : RunParams) : List String := ["-w", p.mountPath]

/-- The safe terminal/locale variables passed through from the host. -/
def safeEnvVars : List String :=
  ["TERM", "LANG", "LC_ALL", "LC_CTYPE", "LC_MESSAGES", "COLORTERM"]

/-- `-e` arguments for the safe terminal/locale variables set on the host. -/
def safeEnvSeg (h : HostEnv) : List String :=
  safeEnvVars.foldl
    (fun args key =>
      if h.getenv key ≠ "" then args ++ ["-e", key ++ "=" ++ h.getenv key]
      else args)
    []

/-- `HOME` fixed to the container user's home, then the sandbox marker. -/
def homeSandboxSeg (p : RunParams) : List String :=
  ["-e", "HOME=/home/" ++ p.remoteUser, "-e", "IS_SANDBOX=1"]

/-- The configured default pass-through variables present on the host. -/
def defaultEnvSeg (h : HostEnv) (p : RunParams) : List String :=
  p.defaultEnvVars.foldl
    (fun args envVar =>
      if h.getenv envVar ≠ "" then
        args ++ ["-e", envVar ++ "=" ++ h.getenv envVar]
      else args)
    []

/-- The three AWS credential keys emitted first, in this fixed order. -/
def credentialKeys : List String :=
  ["AWS_ACCESS_KEY_ID", "AWS_SECRET_ACCESS_KEY", "AWS_SESSION_TOKEN"]

/-- From `pkg/runner` `Run`: the `-e` arguments for the AWS credential map.
The credential keys come first in their fixed order; the remaining keys are
emitted in the order a Go `range` over the map yields them, passed here as
`iterOrder` (Go randomizes it; no sort is applied). -/
def awsEnvArgs (m : List (String × String)) (iterOrder : List String) :
    List String :=
  let credPart := credentialKeys.foldl
    (fun args key =>
      match m.find? (fun kv => kv.1 = key) with
      | some kv => args ++ ["-e", key ++ "=" ++ kv.2]
      | none => args)
    []
  let otherKeys := iterOrder.filter (fun key => ! credentialKeys.contains key)
  otherKeys.foldl
    (fun args key => args ++ ["-e", key ++ "=" ++ aws.mapIndex m key])
    credPart

/-- The keys of the AWS `-e` block, in emission order: the credential keys
present in the map first, then the map-iteration keys outside the
credential triple.  A characterization used to state properties of
`awsEnvArgs`. -/
def awsEmittedKeys (m : List (String × String)) (iterOrder : List String) :
    List String :=
  credentialKeys.filter (fun k => m.any (fun kv => kv.1 = k)) ++
  iterOrder.filter (fun k => ! credentialKeys.contains k)

/-- The AWS `-e` block of the run vector, present when the AWS category is
enabled and the resolved map is non-empty. -/
def awsEnvSeg (h : HostEnv) (p : RunParams) : List String :=
  let m := resolveAwsCredentials h p
  if p.credentials.AWS && ! m.isEmpty then awsEnvArgs m p.awsIterOrder
  else []

/-- The user `--env` overrides: `KEY=value` verbatim, bare `KEY` passed
through from the host when set. -/
def userEnvSeg (h : HostEnv) (p : RunParams) : List String :=
  p.userEnv.foldl
    (fun args env =>
      if GoStr.containsEq env then args ++ ["-e", env]
      else if h.getenv env ≠ "" then
        args ++ ["-e", env ++ "=" ++ h.getenv env]
      else args)
    []

/-- `-p` port mappings, verbatim. -/
def portSeg (p : RunParams) : List String :=
  p.publishPorts.foldl (fun args port => args ++ ["-p", port]) []

/-- The image reference: the built devcontainer tag when a Dockerfile is
configured, otherwise the devcontainer image. -/
def imageSeg (p : RunParams) : List String :=
  [if p.devDockerFile ≠ "" then
    "packnplay-" ++ p.projectName ++ "-devcontainer:latest"
  else p.devImage]

/-- From `pkg/runner` `Run`: the complete argument vector of the detached
`run` that creates a new container, assembled in source order. -/
def runArgs (h : HostEnv) (p : RunParams) : List String :=
  baseArgs h p ++ container.LabelsToArgs p.labels ++ nameArgs p ++
  claudeMountSeg p ++ overlaySeg h p ++ worktreeMountSeg p ++
  agentMountSeg h p ++ ampMountSeg h p ++ gitDirMountSeg p ++
  gitcfgMountSeg h p ++ sshMountSeg h p ++ ghMountSeg h p ++
  gpgMountSeg h p ++ npmMountSeg h p ++ awsMountSeg h p ++
  workdirSeg p ++ safeEnvSeg h ++ homeSandboxSeg p ++ defaultEnvSeg h p ++
  awsEnvSeg h p ++ userEnvSeg h p ++ portSeg p ++ imageSeg p ++
  ["sleep", "infinity"]

/-- From `pkg/runner` `Run`: the argument vector of the interactive `exec`
that follows container creation; its working directory is again the host
path. -/
def execArgs (cmdBase : String) (p : RunParams) (containerID : String) :
    List String :=
  [cmdBase, "exec", "-it", "-w", p.mountPath, containerID] ++ p.command

/-- From `pkg/runner`: detailed information about a running container,
parsed out of the runtime's `ps` output and labels. -/
structure ContainerDetails where
  Names : String
  Status : String
  Project : String
  Worktree : String
  HostPath : String
  LaunchCommand : String
deriving DecidableEq, Repr

/-- The running containers the runtime reports, each with its details; the
source of truth `Run` queries by name. -/
def ContainerState := List ContainerDetails

/-- From `pkg/runner` `containerIsRunning`: a running container with this
exact name exists. -/
def containerIsRunning (st : ContainerState) (name : String) : Bool :=
  (st.find? (fun d => d.Names = name)).isSome

/-- From `pkg/runner` `getContainerDetails`: the details of the running
container with this name. -/
def getContainerDetails (st : ContainerState) (name : String) :
    Option ContainerDetails :=
  st.find? (fun d => d.Names = name)

/-- A single-quote character, for the shell quoting `Run` applies to
command arguments containing spaces. -/
def singleQuote : String := String.singleton (Char.ofNat 39)

/-- From `pkg/runner` `Run`: arguments containing a space are wrapped in
single quotes when reprinted in the conflict message. -/
def quoteArg (arg : String) : String :=
  if GoStr.containsSpace arg then singleQuote ++ arg ++ singleQuote else arg

/-- From `pkg/runner` `Run`: the command string rebuilt for the conflict
message, space-separated with quoting. -/
def buildCmdStr (command : List String) : String :=
  String.intercalate " " (command.map quoteArg)

/-- From `pkg/runner` `Run`: the `--worktree` flag is suppressed when the
current directory already matches the container's recorded host path, and
for the `no-worktree` pseudo-name. -/
def buildWorktreeFlag (currentDir hostPath worktreeName : String) : String :=
  let needWorktreeFlag :=
    if currentDir ≠ "" && hostPath ≠ "" then currentDir ≠ hostPath else true
  if needWorktreeFlag && worktreeName ≠ "no-worktree" then
    " --worktree=" ++ worktreeName
  else ""

/-- From `pkg/runner` `Run`: the structured conflict message, naming the
running container and giving a concrete reconnect command line and a
concrete stop command line. -/
def buildConflictError (details : ContainerDetails) (command : List String)
    (currentDir worktreeName : String) : String :=
  let cmdStr := buildCmdStr command
  let worktreeFlag := buildWorktreeFlag currentDir details.HostPath worktreeName
  "container already running for this worktree\n\n" ++
  "Container Details:\n" ++
  "  Name: " ++ details.Names ++ "\n" ++
  "  Status: " ++ details.Status ++ "\n" ++
  "  Project: " ++ details.Project ++ "\n" ++
  "  Worktree: " ++ details.Worktree ++ "\n" ++
  (if details.HostPath ≠ "" then
    "  Host Path: " ++ details.HostPath ++ "\n" else "") ++
  (if details.LaunchCommand ≠ "" then
    "  Original Command: " ++ details.LaunchCommand ++ "\n" else "") ++
  "\nTo run your command in the existing container:\n" ++
  "  packnplay run" ++ worktreeFlag ++ " --reconnect " ++ cmdStr ++ "\n" ++
  "\nTo stop the existing container:\n" ++
  "  packnplay stop " ++ details.Names

/-- The outcome of `Run`'s step 7: abort with a conflict error, replace the
process with an `exec` into the running container, or go on to create a new
container. -/
inductive RunDecision where
  | conflict (msg : String) : RunDecision
  | reconnectExec (args : List String) : RunDecision
  | createNew : RunDecision
deriving DecidableEq, Repr

/-- From `pkg/runner` `Run`, step 7: if a running container with the
computed name exists, either emit the conflict error (reconnection not
requested; the no-details fallback mirrors the source's degraded message)
or exec into it at the resolved host working directory; otherwise proceed
to create a new container. -/
def checkRunningContainer (st : ContainerState) (reconnect : Bool)
    (containerName : String) (command : List String)
    (currentDir workDir worktreeName cmdBase containerID : String) :
    RunDecision :=
  if containerIsRunning st containerName then
    if ! reconnect then
      match getContainerDetails st containerName with
      | some details =>
          RunDecision.conflict
            (buildConflictError details command currentDir worktreeName)
      | none =>
          RunDecision.conflict
            "container already running for this worktree (unable to get details)"
    else
      RunDecision.reconnectExec
        ([cmdBase, "exec", "-it", "-w", workDir, containerID] ++ command)
  else RunDecision.createNew

end runner

namespace examples

/-- A concrete host for counterexamples and witnesses: static AWS
credentials plus a region and a profile in the environment; not Linux; no
files present except where overridden. -/
def awsHost : runner.HostEnv where
  getenv := fun k =>
    if k = "AWS_ACCESS_KEY_ID" then "A"
    else if k = "AWS_SECRET_ACCESS_KEY" then "S"
    else if k = "AWS_PROFILE" then "dev"
    else if k = "AWS_REGION" then "us-east-1"
    else ""
  environ := ["AWS_ACCESS_KEY_ID=A", "AWS_SECRET_ACCESS_KEY=S",
    "AWS_PROFILE=dev", "AWS_REGION=us-east-1"]
  fileExists := fun _ => false
  fileSize := fun _ => 0
  evalSymlinks := fun _ => none

/-- A concrete macOS-like host where every path exists except
`/proc/version`, so `isLinux` is false. -/
def macHost : runner.HostEnv where
  getenv := fun _ => ""
  environ := []
  fileExists := fun path => path ≠ "/proc/version"
  fileSize := fun _ => 64
  evalSymlinks := fun _ => none

/-- Concrete run parameters with the AWS category enabled. -/
def awsParams : runner.RunParams where
  homeDir := "/Users/u"
  remoteUser := "dev"
  mountPath := "/Users/u/p"
  mainRepoGitDir := ""
  containerName := "cage-p-main"
  credentialFile := "/Users/u/.local/share/packnplay/credentials/claude-credentials.json"
  projectName := "p"
  devImage := "img"
  devDockerFile := ""
  runtimeCmd := "docker"
  labels := []
  credentials := ⟨false, false, false, false, false, true⟩
  defaultEnvVars := []
  userEnv := []
  publishPorts := []
  command := ["claude"]
  awsConfigParse := Except.error "no config"
  shell := ⟨fun _ _ => aws.ProcOutcome.timeout, fun _ => none⟩
  awsIterOrder := []

/-- Concrete run parameters with every credential category enabled. -/
def allCredsParams : runner.RunParams :=
  { awsParams with credentials := ⟨true, true, true, true, true, true⟩ }

/-- One order in which a Go `range` may visit the resolved AWS map. -/
def orderA : List String :=
  ["AWS_ACCESS_KEY_ID", "AWS_SECRET_ACCESS_KEY", "AWS_PROFILE", "AWS_REGION"]

/-- Another possible visiting order of the same map. -/
def orderB : List String :=
  ["AWS_ACCESS_KEY_ID", "AWS_SECRET_ACCESS_KEY", "AWS_REGION", "AWS_PROFILE"]

/-- A concrete running container for the conflict scenario. -/
def conflictDetails : runner.ContainerDetails where
  Names := "packnplay-p-feature-x"
  Status := "Up 2 hours"
  Project := "p"
  Worktree := "feature-x"
  HostPath := "/home/u/p"
  LaunchCommand := "packnplay run claude"

end examples

/-- The specification's description of name sanitization: `/`, `:` and the
space become `-`; every other character is untouched. -/
def specSanitizeChar (c : Char) : Char :=
  if c = '/' ∨ c = ':' ∨ c = ' ' then '-' else c

theorem replaceAllChar_eq_map (old new : Char) (l : List Char) :
    GoStr.replaceAllChar old new l =
      l.map (fun c => if c = old then new else c) := by
  induction l with
  | nil => rfl
  | cons c cs ih => simp [GoStr.replaceAllChar, ih]

theorem sanitizeName_eq_map (w : String) :
    container.sanitizeName w = String.mk (w.data.map specSanitizeChar) := by
  unfold container.sanitizeName
  simp only [replaceAllChar_eq_map, List.map_map]
  congr 1
  apply List.map_congr_left
  intro c _
  simp only [Function.comp_apply, specSanitizeChar]
  by_cases h1 : c = '/'
  · simp [h1]
  · by_cases h2 : c = ' '
    · simp [h1, h2]
    · by_cases h3 : c = ':'
      · simp [h1, h2, h3]
      · simp [h1, h2, h3]

theorem sanitizeBranchName_eq_sanitizeName (w : String) :
    git.sanitizeBranchName w = container.sanitizeName w := by
  unfold git.sanitizeBranchName container.sanitizeName
  simp only [replaceAllChar_eq_map, List.map_map]
  congr 1
  apply List.map_congr_left
  intro c _
  simp only [Function.comp_apply]
  by_cases h1 : c = '/'
  · simp [h1]
  · by_cases h2 : c = ' '
    · by_cases h3 : c = ':' <;> simp [h1, h2, h3]
    · by_cases h3 : c = ':' <;> simp [h1, h2, h3]

/-- Claim C6: for every project path and worktree name, the generated
container name is `<app>-` (`cage-`) followed by the base name of the
project path, a `-`, and the worktree name sanitized by replacing every
occurrence of `/`, `:` and the space with `-` and changing no other
character. -/
theorem generateContainerName_spec (projectPath worktreeName : String) :
    container.GenerateContainerName projectPath worktreeName =
      "cage-" ++ GoPath.base projectPath ++ "-" ++
        String.mk (worktreeName.data.map specSanitizeChar) := by
  unfold container.GenerateContainerName
  rw [sanitizeName_eq_map]

/-- Claim C10, counterexample: the worktree names `feature/x` and
`feature:x` sanitize to the same container name, but their label sets are
NOT equal — the worktree label stores the raw, unsanitized name — so the
claim's "and the same label set" is false. -/
theorem sanitized_collision_labels_differ :
    container.GenerateContainerName "/home/u/p" "feature/x" =
      container.GenerateContainerName "/home/u/p" "feature:x" ∧
    container.GenerateLabels "p" "feature/x" ≠
      container.GenerateLabels "p" "feature:x" := by
  constructor
  · rfl
  · decide

/-- Claim C10 as amended: container identity is not injective in the
worktree name — any two worktree names with the same sanitized form yield
the same container name (the identity used for conflict detection,
reconnection and stop, which all key on the container name) — but when the
raw names differ their label sets differ in the worktree label. -/
theorem sanitized_collision_shared_identity (p w1 w2 : String)
    (hs : container.sanitizeName w1 = container.sanitizeName w2) :
    container.GenerateContainerName p w1 =
      container.GenerateContainerName p w2 ∧
    (w1 ≠ w2 → ∀ pn, container.GenerateLabels pn w1 ≠
      container.GenerateLabels pn w2) := by
  constructor
  · unfold container.GenerateContainerName
    rw [hs]
  · intro hne pn heq
    apply hne
    simpa [container.GenerateLabels] using heq

/-- Witness for the amended C10 at the example names `feature/x` and
`feature:x`. -/
theorem sanitized_collision_shared_identity_witness :
    container.sanitizeName "feature/x" = container.sanitizeName "feature:x" ∧
    (container.GenerateContainerName "/home/u/p" "feature/x" =
       container.GenerateContainerName "/home/u/p" "feature:x" ∧
     ("feature/x" ≠ "feature:x" → ∀ pn,
       container.GenerateLabels pn "feature/x" ≠
         container.GenerateLabels pn "feature:x")) :=
  ⟨by decide, sanitized_collision_shared_identity "/home/u/p" "feature/x"
    "feature:x" (by decide)⟩

/-- Claim C2: every new-container invocation mounts the worktree
`mount_path` onto itself (`-v mount_path:mount_path`), and both the
detached `run` and the follow-up interactive `exec` use `-w mount_path` as
the working directory. -/
theorem worktree_mount_and_workdir (h : runner.HostEnv)
    (p : runner.RunParams) (cmdBase containerID : String) :
    ["-v", p.mountPath ++ ":" ++ p.mountPath] <:+: runner.runArgs h p ∧
    ["-w", p.mountPath] <:+: runner.runArgs h p ∧
    ["-w", p.mountPath] <:+: runner.execArgs cmdBase p containerID := by
  refine ⟨?_, ?_, ?_⟩
  · refine ⟨runner.baseArgs h p ++ container.LabelsToArgs p.labels ++
      runner.nameArgs p ++ runner.claudeMountSeg p ++ runner.overlaySeg h p,
      runner.agentMountSeg h p ++ runner.ampMountSeg h p ++
      runner.gitDirMountSeg p ++ runner.gitcfgMountSeg h p ++
      runner.sshMountSeg h p ++ runner.ghMountSeg h p ++
      runner.gpgMountSeg h p ++ runner.npmMountSeg h p ++
      runner.awsMountSeg h p ++ runner.workdirSeg p ++ runner.safeEnvSeg h ++
      runner.homeSandboxSeg p ++ runner.defaultEnvSeg h p ++
      runner.awsEnvSeg h p ++ runner.userEnvSeg h p ++ runner.portSeg p ++
      runner.imageSeg p ++ ["sleep", "infinity"], ?_⟩
    simp [runner.runArgs, runner.worktreeMountSeg]
  · refine ⟨runner.baseArgs h p ++ container.LabelsToArgs p.labels ++
      runner.nameArgs p ++ runner.claudeMountSeg p ++ runner.overlaySeg h p ++
      runner.worktreeMountSeg p ++ runner.agentMountSeg h p ++
      runner.ampMountSeg h p ++ runner.gitDirMountSeg p ++
      runner.gitcfgMountSeg h p ++ runner.sshMountSeg h p ++
      runner.ghMountSeg h p ++ runner.gpgMountSeg h p ++
      runner.npmMountSeg h p ++ runner.awsMountSeg h p,
      runner.safeEnvSeg h ++ runner.homeSandboxSeg p ++
      runner.defaultEnvSeg h p ++ runner.awsEnvSeg h p ++
      runner.userEnvSeg h p ++ runner.portSeg p ++ runner.imageSeg p ++
      ["sleep", "infinity"], ?_⟩
    simp [runner.runArgs, runner.workdirSeg]
  · exact ⟨[cmdBase, "exec", "-it"], containerID :: p.command,
      by simp [runner.execArgs]⟩

/-- Claim C4: the credential overlay mount is used exactly when the host
`~/.claude/.credentials.json` is missing or smaller than 20 bytes; when it
is used, the overlay `-v` argument pair is part of the run vector, and when
the host file is 20 bytes or larger no overlay mount argument is
generated. -/
theorem credential_overlay_boundary (h : runner.HostEnv)
    (p : runner.RunParams) :
    (runner.needsCredentialOverlay h p = true ↔
      h.fileExists (runner.hostCredFile p) = false ∨
        h.fileSize (runner.hostCredFile p) < 20) ∧
    (runner.needsCredentialOverlay h p = true →
      ["-v", p.credentialFile ++ ":/home/" ++ p.remoteUser ++
        "/.claude/.credentials.json"] <:+: runner.runArgs h p) ∧
    (runner.needsCredentialOverlay h p = false →
      runner.overlaySeg h p = []) := by
  refine ⟨?_, ?_, ?_⟩
  · unfold runner.needsCredentialOverlay runner.hostHasCredentials
    cases hex : h.fileExists (runner.hostCredFile p)
    · simp [hex]
    · simp [hex]
  · intro hneed
    refine ⟨runner.baseArgs h p ++ container.LabelsToArgs p.labels ++
      runner.nameArgs p ++ runner.claudeMountSeg p,
      runner.worktreeMountSeg p ++ runner.agentMountSeg h p ++
      runner.ampMountSeg h p ++ runner.gitDirMountSeg p ++
      runner.gitcfgMountSeg h p ++ runner.sshMountSeg h p ++
      runner.ghMountSeg h p ++ runner.gpgMountSeg h p ++
      runner.npmMountSeg h p ++ runner.awsMountSeg h p ++
      runner.workdirSeg p ++ runner.safeEnvSeg h ++
      runner.homeSandboxSeg p ++ runner.defaultEnvSeg h p ++
      runner.awsEnvSeg h p ++ runner.userEnvSeg h p ++ runner.portSeg p ++
      runner.imageSeg p ++ ["sleep", "infinity"], ?_⟩
    simp [runner.runArgs, runner.overlaySeg, hneed]
  · intro hno
    simp [runner.overlaySeg, hno]

/-- Witness for C4: a host whose credential file is absent takes the
overlay, and one with a 64-byte file does not. -/
theorem credential_overlay_boundary_witness :
    (runner.needsCredentialOverlay
        ⟨fun _ => "", [], fun _ => false, fun _ => 0, fun _ => none⟩
        { homeDir := "/home/u", remoteUser := "dev", mountPath := "/home/u/p",
          mainRepoGitDir := "", containerName := "cage-p-main",
          credentialFile := "/home/u/.local/share/packnplay/credentials/claude-credentials.json",
          projectName := "p", devImage := "img", devDockerFile := "",
          runtimeCmd := "docker", labels := [],
          credentials := ⟨false, false, false, false, false, false⟩,
          defaultEnvVars := [], userEnv := [], publishPorts := [],
          command := [], awsConfigParse := Except.error "no config",
          shell := ⟨fun _ _ => aws.ProcOutcome.timeout, fun _ => none⟩,
          awsIterOrder := [] } = true ↔
      (false : Bool) = false ∨ (0 : Int) < 20) ∧
    (runner.needsCredentialOverlay
        ⟨fun _ => "", [], fun _ => true, fun _ => 64, fun _ => none⟩
        { homeDir := "/home/u", remoteUser := "dev", mountPath := "/home/u/p",
          mainRepoGitDir := "", containerName := "cage-p-main",
          credentialFile := "/home/u/.local/share/packnplay/credentials/claude-credentials.json",
          projectName := "p", devImage := "img", devDockerFile := "",
          runtimeCmd := "docker", labels := [],
          credentials := ⟨false, false, false, false, false, false⟩,
          defaultEnvVars := [], userEnv := [], publishPorts := [],
          command := [], awsConfigParse := Except.error "no config",
          shell := ⟨fun _ _ => aws.ProcOutcome.timeout, fun _ => none⟩,
          awsIterOrder := [] } = false →
      runner.overlaySeg
        ⟨fun _ => "", [], fun _ => true, fun _ => 64, fun _ => none⟩
        { homeDir := "/home/u", remoteUser := "dev", mountPath := "/home/u/p",
          mainRepoGitDir := "", containerName := "cage-p-main",
          credentialFile := "/home/u/.local/share/packnplay/credentials/claude-credentials.json",
          projectName := "p", devImage := "img", devDockerFile := "",
          runtimeCmd := "docker", labels := [],
          credentials := ⟨false, false, false, false, false, false⟩,
          defaultEnvVars := [], userEnv := [], publishPorts := [],
          command := [], awsConfigParse := Except.error "no config",
          shell := ⟨fun _ _ => aws.ProcOutcome.timeout, fun _ => none⟩,
          awsIterOrder := [] } = []) :=
  ⟨(credential_overlay_boundary
      ⟨fun _ => "", [], fun _ => false, fun _ => 0, fun _ => none⟩ _).1,
   (credential_overlay_boundary
      ⟨fun _ => "", [], fun _ => true, fun _ => 64, fun _ => none⟩ _).2.2⟩

/-- Claim C1, evaluated at the failing input: a config file holding an
unknown top-level field `experimental` is rewritten by `UpdateConfigSafely`
(here flipping `default_credentials.aws` to true) WITHOUT the unknown
field — the saved document's keys are exactly the six schema fields, so
`experimental` is lost, while the known update does land.  The round-trip
through the typed `Config` struct cannot represent unknown fields. -/
theorem update_config_drops_unknown_field :
    ((some [("experimental", config.Json.obj [("enabled", config.Json.bool true)]),
            ("container_runtime", config.Json.str "docker"),
            ("default_credentials", config.Json.obj [("git", config.Json.bool true)])]
        : Option (List (String × config.Json))).map
          (fun fields => (fields.map Prod.fst).contains "experimental")
      = some true) ∧
    ((config.UpdateConfigSafely
        (some [("experimental", config.Json.obj [("enabled", config.Json.bool true)]),
               ("container_runtime", config.Json.str "docker"),
               ("default_credentials", config.Json.obj [("git", config.Json.bool true)])])
        ⟨none, some ⟨true, false, false, false, false, true⟩, none⟩).map
          (fun fields => fields.map Prod.fst)
      = some ["container_runtime", "default_image", "default_credentials",
              "default_env_vars", "env_configs", "default_container"]) ∧
    ((config.UpdateConfigSafely
        (some [("experimental", config.Json.obj [("enabled", config.Json.bool true)]),
               ("container_runtime", config.Json.str "docker"),
               ("default_credentials", config.Json.obj [("git", config.Json.bool true)])])
        ⟨none, some ⟨true, false, false, false, false, true⟩, none⟩).bind
          (fun fields => config.getField fields "default_credentials")
      = some (config.marshalCredentials ⟨true, false, false, false, false, true⟩)) :=
  ⟨rfl, rfl, rfl⟩

/-- Claim C5: `GetCredentialsFromProcess` runs the directive through the
shell under the 30-second deadline and errors exactly when the process
times out, exits non-zero, prints output that does not decode as JSON, or
the decoded JSON lacks `AccessKeyId` or `SecretAccessKey`; a returned
credential always has both required fields non-empty (nothing is required
of `SessionToken` or `Expiration`). -/
theorem credentials_from_process_spec (env : aws.ShellEnv) (cp : String)
    (hcp : cp ≠ "") :
    ((∃ e, aws.GetCredentialsFromProcess env cp = Except.error e) ↔
      (env.run cp 30 = aws.ProcOutcome.timeout ∨
       (∃ o, env.run cp 30 = aws.ProcOutcome.exitErr o) ∨
       (∃ o, env.run cp 30 = aws.ProcOutcome.success o ∧
         (env.decode o = none ∨
          ∃ c, env.decode o = some c ∧
            (c.AccessKeyID = "" ∨ c.SecretAccessKey = ""))))) ∧
    (∀ c, aws.GetCredentialsFromProcess env cp = Except.ok c →
      c.AccessKeyID ≠ "" ∧ c.SecretAccessKey ≠ "" ∧
      ∃ o, env.run cp 30 = aws.ProcOutcome.success o ∧
        env.decode o = some c) := by
  unfold aws.GetCredentialsFromProcess
  rw [if_neg hcp]
  cases hrun : env.run cp 30 with
  | timeout => simp [hrun]
  | exitErr o => simp [hrun]
  | success o =>
    cases hdec : env.decode o with
    | none => simp [hdec]
    | some c =>
      by_cases hak : c.AccessKeyID = ""
      · simp [hdec, hak]
      · by_cases hsk : c.SecretAccessKey = ""
        · simp [hdec, hak, hsk]
        · simp [hdec, hak, hsk]

/-- Witness for C5: a concrete shell whose process prints output decoding
to credentials with both required fields and no session token; the theorem
applies at the non-empty directive `/usr/local/bin/creds`. -/
theorem credentials_from_process_spec_witness :
    (("/usr/local/bin/creds" : String) ≠ "") ∧
    (((∃ e, aws.GetCredentialsFromProcess
          ⟨fun _ _ => aws.ProcOutcome.success "json",
           fun _ => some ⟨"A", "S", "", "", 1⟩⟩
          "/usr/local/bin/creds" = Except.error e) ↔
        ((aws.ShellEnv.run
            ⟨fun _ _ => aws.ProcOutcome.success "json",
             fun _ => some ⟨"A", "S", "", "", 1⟩⟩
            "/usr/local/bin/creds" 30 = aws.ProcOutcome.timeout ∨
         (∃ o, aws.ShellEnv.run
            ⟨fun _ _ => aws.ProcOutcome.success "json",
             fun _ => some ⟨"A", "S", "", "", 1⟩⟩
            "/usr/local/bin/creds" 30 = aws.ProcOutcome.exitErr o) ∨
         (∃ o, aws.ShellEnv.run
            ⟨fun _ _ => aws.ProcOutcome.success "json",
             fun _ => some ⟨"A", "S", "", "", 1⟩⟩
            "/usr/local/bin/creds" 30 = aws.ProcOutcome.success o ∧
           (aws.ShellEnv.decode
              ⟨fun _ _ => aws.ProcOutcome.success "json",
               fun _ => some ⟨"A", "S", "", "", 1⟩⟩ o = none ∨
            ∃ c, aws.ShellEnv.decode
              ⟨fun _ _ => aws.ProcOutcome.success "json",
               fun _ => some ⟨"A", "S", "", "", 1⟩⟩ o = some c ∧
              (c.AccessKeyID = "" ∨ c.SecretAccessKey = "")))))) ∧
      (∀ c, aws.GetCredentialsFromProcess
          ⟨fun _ _ => aws.ProcOutcome.success "json",
           fun _ => some ⟨"A", "S", "", "", 1⟩⟩
          "/usr/local/bin/creds" = Except.ok c →
        c.AccessKeyID ≠ "" ∧ c.SecretAccessKey ≠ "" ∧
        ∃ o, aws.ShellEnv.run
            ⟨fun _ _ => aws.ProcOutcome.success "json",
             fun _ => some ⟨"A", "S", "", "", 1⟩⟩
            "/usr/local/bin/creds" 30 = aws.ProcOutcome.success o ∧
          aws.ShellEnv.decode
            ⟨fun _ _ => aws.ProcOutcome.success "json",
             fun _ => some ⟨"A", "S", "", "", 1⟩⟩ o = some c)) :=
  ⟨by decide,
   credentials_from_process_spec
     ⟨fun _ _ => aws.ProcOutcome.success "json",
      fun _ => some ⟨"A", "S", "", "", 1⟩⟩
     "/usr/local/bin/creds" (by decide)⟩

/-- Claim C3, evaluated at the failing input: with identical program inputs
(static AWS credentials plus `AWS_PROFILE` and `AWS_REGION` on the host),
the `-e` sequence emitted for the AWS map depends on the order in which the
Go `range` visits the map — two legitimate visiting orders of the same map
give different argument sequences.  Go randomizes that order and, despite
the source comment "Sort for deterministic output", no sort is applied to
`otherKeys`, so the sequence is neither deterministic nor sorted. -/
theorem aws_env_args_depend_on_map_order :
    (runner.resolveAwsCredentials examples.awsHost examples.awsParams).map
        Prod.fst =
      ["AWS_ACCESS_KEY_ID", "AWS_SECRET_ACCESS_KEY", "AWS_PROFILE",
       "AWS_REGION"] ∧
    examples.orderA.Perm
      ((runner.resolveAwsCredentials examples.awsHost examples.awsParams).map
        Prod.fst) ∧
    examples.orderB.Perm
      ((runner.resolveAwsCredentials examples.awsHost examples.awsParams).map
        Prod.fst) ∧
    runner.awsEnvArgs
        (runner.resolveAwsCredentials examples.awsHost examples.awsParams)
        examples.orderA ≠
      runner.awsEnvArgs
        (runner.resolveAwsCredentials examples.awsHost examples.awsParams)
        examples.orderB ∧
    runner.awsEnvSeg examples.awsHost
        { examples.awsParams with awsIterOrder := examples.orderA } ≠
      runner.awsEnvSeg examples.awsHost
        { examples.awsParams with awsIterOrder := examples.orderB } := by
  refine ⟨by decide, by decide, by decide, by decide, by decide⟩

theorem upsert_forall_keys {P : String → Prop} (m : List (String × String))
    (k v : String) (hm : ∀ kv ∈ m, P kv.1) (hk : P k) :
    ∀ kv ∈ aws.upsert m k v, P kv.1 := by
  intro kv hkv
  unfold aws.upsert at hkv
  split at hkv
  · rcases List.mem_map.mp hkv with ⟨kv', hkv', heq⟩
    by_cases hcase : kv'.1 = k
    · simp only [hcase, if_pos rfl] at heq
      exact heq ▸ hk
    · simp only [if_neg hcase] at heq
      exact heq ▸ hm kv' hkv'
  · rcases List.mem_append.mp hkv with hin | hin
    · exact hm kv hin
    · simp only [List.mem_singleton] at hin
      exact hin ▸ hk

theorem getAWSEnvVars_keys_not_excluded (environ : List String) :
    ∀ kv ∈ aws.GetAWSEnvVars environ, kv.1 ∉ aws.excludeVars := by
  unfold aws.GetAWSEnvVars
  generalize hacc : ([] : List (String × String)) = acc
  have hbase : ∀ kv ∈ acc, kv.1 ∉ aws.excludeVars := by
    intro kv hkv; rw [← hacc] at hkv; cases hkv
  clear hacc
  induction environ generalizing acc with
  | nil => exact hbase
  | cons e es ih =>
    simp only [List.foldl_cons]
    apply ih
    intro kv hkv
    split at hkv
    · split at hkv
      · rename_i key value heq
        split at hkv
        · exact hbase kv hkv
        · rename_i hexcl
          refine upsert_forall_keys (P := fun s => s ∉ aws.excludeVars)
            _ _ _ hbase ?_ kv hkv
          intro hmem
          exact hexcl (by simpa using hmem)
      · exact hbase kv hkv
    · exact hbase kv hkv

theorem foldl_preserve {α β : Type} {P : β → Prop} (step : β → α → β)
    (l : List α) (b : β) (hb : P b)
    (hstep : ∀ b' a, P b' → a ∈ l → P (step b' a)) :
    P (l.foldl step b) := by
  induction l generalizing b with
  | nil => exact hb
  | cons a as ih =>
    exact ih (step b a) (hstep b a hb (List.mem_cons_self a as))
      (fun b' a' hb' ha' => hstep b' a' hb' (List.mem_cons_of_mem a ha'))

theorem credProcessMap_keys_not_excluded (h : runner.HostEnv)
    (creds : aws.AWSCredentials) :
    ∀ kv ∈ runner.credProcessMap h creds, kv.1 ∉ aws.excludeVars := by
  unfold runner.credProcessMap
  dsimp only
  apply foldl_preserve
    (P := fun (m : List (String × String)) => ∀ kv ∈ m, kv.1 ∉ aws.excludeVars)
  · split
    · apply upsert_forall_keys (P := fun s => s ∉ aws.excludeVars)
        _ _ _ ?_ (by decide)
      apply upsert_forall_keys (P := fun s => s ∉ aws.excludeVars)
        _ _ _ ?_ (by decide)
      apply upsert_forall_keys (P := fun s => s ∉ aws.excludeVars)
        _ _ _ ?_ (by decide)
      intro kv hkv; cases hkv
    · apply upsert_forall_keys (P := fun s => s ∉ aws.excludeVars)
        _ _ _ ?_ (by decide)
      apply upsert_forall_keys (P := fun s => s ∉ aws.excludeVars)
        _ _ _ ?_ (by decide)
      intro kv hkv; cases hkv
  · intro m' kv hm' hkv
    split
    · exact upsert_forall_keys (P := fun s => s ∉ aws.excludeVars) _ _ _ hm'
        (getAWSEnvVars_keys_not_excluded h.environ kv hkv)
    · exact hm'

theorem resolveAws_keys_not_excluded (h : runner.HostEnv)
    (p : runner.RunParams) :
    ∀ kv ∈ runner.resolveAwsCredentials h p, kv.1 ∉ aws.excludeVars := by
  unfold runner.resolveAwsCredentials
  split
  · exact getAWSEnvVars_keys_not_excluded h.environ
  · split
    · split
      · exact getAWSEnvVars_keys_not_excluded h.environ
      · split
        · exact getAWSEnvVars_keys_not_excluded h.environ
        · exact credProcessMap_keys_not_excluded h _
    · exact getAWSEnvVars_keys_not_excluded h.environ

theorem aws_env_step_eq (m : List (String × String)) (k : String)
    (args : List String) :
    (match m.find? (fun kv => kv.1 = k) with
     | some kv => args ++ ["-e", k ++ "=" ++ kv.2]
     | none => args) =
    (if m.any (fun kv => kv.1 = k) then
      args ++ ["-e", k ++ "=" ++ aws.mapIndex m k]
    else args) := by
  cases hf : m.find? (fun kv => kv.1 = k) with
  | none =>
    have hany : m.any (fun kv => kv.1 = k) = false := by
      rw [List.any_eq_false]
      intro kv hkv
      have := List.find?_eq_none.mp hf kv hkv
      simpa using this
    simp [hany]
  | some kv =>
    have hp : kv.1 = k := by simpa using List.find?_some hf
    have hmem : kv ∈ m := List.mem_of_find?_eq_some hf
    have hany : m.any (fun kv => kv.1 = k) = true :=
      List.any_eq_true.mpr ⟨kv, hmem, by simpa using hp⟩
    have hidx : aws.mapIndex m k = kv.2 := by
      unfold aws.mapIndex
      rw [hf]
    simp [hany, hidx]

theorem awsEnvArgs_eq_emitted (m : List (String × String))
    (iter : List String) :
    runner.awsEnvArgs m iter =
      (runner.awsEmittedKeys m iter).foldl
        (fun args k => args ++ ["-e", k ++ "=" ++ aws.mapIndex m k]) [] := by
  unfold runner.awsEnvArgs runner.awsEmittedKeys
  dsimp only
  rw [List.foldl_append]
  congr 1
  unfold runner.credentialKeys
  simp only [List.foldl_cons, List.foldl_nil]
  rw [aws_env_step_eq, aws_env_step_eq, aws_env_step_eq]
  by_cases h1 : m.any (fun kv => kv.1 = "AWS_ACCESS_KEY_ID") <;>
    by_cases h2 : m.any (fun kv => kv.1 = "AWS_SECRET_ACCESS_KEY") <;>
      by_cases h3 : m.any (fun kv => kv.1 = "AWS_SESSION_TOKEN") <;>
        simp [h1, h2, h3, List.filter]

/-- Claim C7: in every AWS resolution path (static environment credentials,
`credential_process`, environment fallback), the AWS `-e` block consists of
exactly one `-e k=v` pair per emitted key, and no emitted key is one of the
blocklisted `AWS_CONTAINER_*` variables; the run vector's AWS segment is
either empty or exactly this block. -/
theorem aws_blocklist_never_injected (h : runner.HostEnv)
    (p : runner.RunParams)
    (hiter : ∀ k ∈ p.awsIterOrder,
      (runner.resolveAwsCredentials h p).any (fun kv => kv.1 = k) = true) :
    (runner.awsEnvArgs (runner.resolveAwsCredentials h p) p.awsIterOrder =
      (runner.awsEmittedKeys (runner.resolveAwsCredentials h p)
          p.awsIterOrder).foldl
        (fun args k => args ++
          ["-e", k ++ "=" ++ aws.mapIndex (runner.resolveAwsCredentials h p) k])
        []) ∧
    (∀ k ∈ runner.awsEmittedKeys (runner.resolveAwsCredentials h p)
        p.awsIterOrder, k ∉ aws.excludeVars) ∧
    (runner.awsEnvSeg h p = [] ∨
      runner.awsEnvSeg h p =
        runner.awsEnvArgs (runner.resolveAwsCredentials h p) p.awsIterOrder) := by
  refine ⟨awsEnvArgs_eq_emitted _ _, ?_, ?_⟩
  · intro k hk
    rcases List.mem_append.mp hk with hk | hk
    · have hkc : k ∈ runner.credentialKeys := List.mem_of_mem_filter hk
      simp only [runner.credentialKeys, List.mem_cons, List.mem_singleton,
        List.not_mem_nil, or_false] at hkc
      rcases hkc with rfl | rfl | rfl <;> decide
    · have hki : k ∈ p.awsIterOrder := List.mem_of_mem_filter hk
      rcases List.any_eq_true.mp (hiter k hki) with ⟨kv, hmem, hpred⟩
      have hkey : kv.1 = k := by simpa using hpred
      exact hkey ▸ resolveAws_keys_not_excluded h p kv hmem
  · unfold runner.awsEnvSeg
    dsimp only
    split
    · exact Or.inr rfl
    · exact Or.inl rfl

/-- Witness for C7 at the concrete AWS host, with a legitimate map
iteration order. -/
theorem aws_blocklist_never_injected_witness :
    (∀ k ∈ ({ examples.awsParams with awsIterOrder := examples.orderA }
        : runner.RunParams).awsIterOrder,
      (runner.resolveAwsCredentials examples.awsHost
          { examples.awsParams with awsIterOrder := examples.orderA }).any
        (fun kv => kv.1 = k) = true) ∧
    ((runner.awsEnvArgs
        (runner.resolveAwsCredentials examples.awsHost
          { examples.awsParams with awsIterOrder := examples.orderA })
        ({ examples.awsParams with awsIterOrder := examples.orderA }
          : runner.RunParams).awsIterOrder =
      (runner.awsEmittedKeys
          (runner.resolveAwsCredentials examples.awsHost
            { examples.awsParams with awsIterOrder := examples.orderA })
          ({ examples.awsParams with awsIterOrder := examples.orderA }
            : runner.RunParams).awsIterOrder).foldl
        (fun args k => args ++
          ["-e", k ++ "=" ++
            aws.mapIndex
              (runner.resolveAwsCredentials examples.awsHost
                { examples.awsParams with awsIterOrder := examples.orderA })
              k])
        []) ∧
    (∀ k ∈ runner.awsEmittedKeys
        (runner.resolveAwsCredentials examples.awsHost
          { examples.awsParams with awsIterOrder := examples.orderA })
        ({ examples.awsParams with awsIterOrder := examples.orderA }
          : runner.RunParams).awsIterOrder, k ∉ aws.excludeVars) ∧
    (runner.awsEnvSeg examples.awsHost
        { examples.awsParams with awsIterOrder := examples.orderA } = [] ∨
      runner.awsEnvSeg examples.awsHost
          { examples.awsParams with awsIterOrder := examples.orderA } =
        runner.awsEnvArgs
          (runner.resolveAwsCredentials examples.awsHost
            { examples.awsParams with awsIterOrder := examples.orderA })
          ({ examples.awsParams with awsIterOrder := examples.orderA }
            : runner.RunParams).awsIterOrder)) :=
  ⟨by decide,
   aws_blocklist_never_injected examples.awsHost
     { examples.awsParams with awsIterOrder := examples.orderA } (by decide)⟩

/-- Claim C8, counterexample: on a non-Linux host with every credential
category enabled and `~/.config/gh` present, no mount of the gh config
directory appears in the run vector — the gh source is enabled and exists,
yet is not mounted, refuting the claimed equivalence. -/
theorem gh_mount_missing_on_mac :
    examples.macHost.fileExists "/Users/u/.config/gh" = true ∧
    examples.allCredsParams.credentials.GH = true ∧
    runner.ghMountSeg examples.macHost examples.allCredsParams = [] ∧
    ¬ ("/Users/u/.config/gh:/home/dev/.config/gh" ∈
        runner.runArgs examples.macHost examples.allCredsParams) := by
  refine ⟨by decide, by decide, by decide, by decide⟩

/-- Claim C8 as amended: for git, ssh, gpg, npm and aws the source is
mounted iff the category is enabled and the source exists on the host
(construction is total, so a missing source never aborts); for gh the
mount additionally requires a Linux host.  Each category's segment is part
of the run vector. -/
theorem credential_mounts_iff_exists (h : runner.HostEnv)
    (p : runner.RunParams) :
    (runner.gitcfgMountSeg h p ≠ [] ↔
      p.credentials.Git = true ∧
        h.fileExists (p.homeDir ++ "/.gitconfig") = true) ∧
    (runner.sshMountSeg h p ≠ [] ↔
      p.credentials.SSH = true ∧
        h.fileExists (p.homeDir ++ "/.ssh") = true) ∧
    (runner.ghMountSeg h p ≠ [] ↔
      p.credentials.GH = true ∧ runner.isLinux h = true ∧
        h.fileExists (p.homeDir ++ "/.config/gh") = true) ∧
    (runner.gpgMountSeg h p ≠ [] ↔
      p.credentials.GPG = true ∧
        h.fileExists (p.homeDir ++ "/.gnupg") = true) ∧
    (runner.npmMountSeg h p ≠ [] ↔
      p.credentials.NPM = true ∧
        h.fileExists (p.homeDir ++ "/.npmrc") = true) ∧
    (runner.awsMountSeg h p ≠ [] ↔
      p.credentials.AWS = true ∧
        h.fileExists (p.homeDir ++ "/.aws") = true) ∧
    runner.gitcfgMountSeg h p <:+: runner.runArgs h p ∧
    runner.sshMountSeg h p <:+: runner.runArgs h p ∧
    runner.ghMountSeg h p <:+: runner.runArgs h p ∧
    runner.gpgMountSeg h p <:+: runner.runArgs h p ∧
    runner.npmMountSeg h p <:+: runner.runArgs h p ∧
    runner.awsMountSeg h p <:+: runner.runArgs h p := by
  refine ⟨?_, ?_, ?_, ?_, ?_, ?_, ?_, ?_, ?_, ?_, ?_, ?_⟩
  · cases hg : p.credentials.Git <;>
      cases he : h.fileExists (p.homeDir ++ "/.gitconfig") <;>
        simp [runner.gitcfgMountSeg, hg, he]
  · cases hg : p.credentials.SSH <;>
      cases he : h.fileExists (p.homeDir ++ "/.ssh") <;>
        simp [runner.sshMountSeg, hg, he]
  · cases hg : p.credentials.GH <;> cases hl : runner.isLinux h <;>
      cases he : h.fileExists (p.homeDir ++ "/.config/gh") <;>
        simp [runner.ghMountSeg, hg, hl, he]
  · cases hg : p.credentials.GPG <;>
      cases he : h.fileExists (p.homeDir ++ "/.gnupg") <;>
        simp [runner.gpgMountSeg, hg, he]
  · cases hg : p.credentials.NPM <;>
      cases he : h.fileExists (p.homeDir ++ "/.npmrc") <;>
        simp [runner.npmMountSeg, hg, he]
  · cases hg : p.credentials.AWS <;>
      cases he : h.fileExists (p.homeDir ++ "/.aws") <;>
        simp [runner.awsMountSeg, hg, he]
  · refine ⟨runner.baseArgs h p ++ container.LabelsToArgs p.labels ++
      runner.nameArgs p ++ runner.claudeMountSeg p ++ runner.overlaySeg h p ++
      runner.worktreeMountSeg p ++ runner.agentMountSeg h p ++
      runner.ampMountSeg h p ++ runner.gitDirMountSeg p,
      runner.sshMountSeg h p ++ runner.ghMountSeg h p ++
      runner.gpgMountSeg h p ++ runner.npmMountSeg h p ++
      runner.awsMountSeg h p ++ runner.workdirSeg p ++ runner.safeEnvSeg h ++
      runner.homeSandboxSeg p ++ runner.defaultEnvSeg h p ++
      runner.awsEnvSeg h p ++ runner.userEnvSeg h p ++ runner.portSeg p ++
      runner.imageSeg p ++ ["sleep", "infinity"], ?_⟩
    simp [runner.runArgs]
  · refine ⟨runner.baseArgs h p ++ container.LabelsToArgs p.labels ++
      runner.nameArgs p ++ runner.claudeMountSeg p ++ runner.overlaySeg h p ++
      runner.worktreeMountSeg p ++ runner.agentMountSeg h p ++
      runner.ampMountSeg h p ++ runner.gitDirMountSeg p ++
      runner.gitcfgMountSeg h p,
      runner.ghMountSeg h p ++ runner.gpgMountSeg h p ++
      runner.npmMountSeg h p ++ runner.awsMountSeg h p ++
      runner.workdirSeg p ++ runner.safeEnvSeg h ++
      runner.homeSandboxSeg p ++ runner.defaultEnvSeg h p ++
      runner.awsEnvSeg h p ++ runner.userEnvSeg h p ++ runner.portSeg p ++
      runner.imageSeg p ++ ["sleep", "infinity"], ?_⟩
    simp [runner.runArgs]
  · refine ⟨runner.baseArgs h p ++ container.LabelsToArgs p.labels ++
      runner.nameArgs p ++ runner.claudeMountSeg p ++ runner.overlaySeg h p ++
      runner.worktreeMountSeg p ++ runner.agentMountSeg h p ++
      runner.ampMountSeg h p ++ runner.gitDirMountSeg p ++
      runner.gitcfgMountSeg h p ++ runner.sshMountSeg h p,
      runner.gpgMountSeg h p ++ runner.npmMountSeg h p ++
      runner.awsMountSeg h p ++ runner.workdirSeg p ++ runner.safeEnvSeg h ++
      runner.homeSandboxSeg p ++ runner.defaultEnvSeg h p ++
      runner.awsEnvSeg h p ++ runner.userEnvSeg h p ++ runner.portSeg p ++
      runner.imageSeg p ++ ["sleep", "infinity"], ?_⟩
    simp [runner.runArgs]
  · refine ⟨runner.baseArgs h p ++ container.LabelsToArgs p.labels ++
      runner.nameArgs p ++ runner.claudeMountSeg p ++ runner.overlaySeg h p ++
      runner.worktreeMountSeg p ++ runner.agentMountSeg h p ++
      runner.ampMountSeg h p ++ runner.gitDirMountSeg p ++
      runner.gitcfgMountSeg h p ++ runner.sshMountSeg h p ++
      runner.ghMountSeg h p,
      runner.npmMountSeg h p ++ runner.awsMountSeg h p ++
      runner.workdirSeg p ++ runner.safeEnvSeg h ++
      runner.homeSandboxSeg p ++ runner.defaultEnvSeg h p ++
      runner.awsEnvSeg h p ++ runner.userEnvSeg h p ++ runner.portSeg p ++
      runner.imageSeg p ++ ["sleep", "infinity"], ?_⟩
    simp [runner.runArgs]
  · refine ⟨runner.baseArgs h p ++ container.LabelsToArgs p.labels ++
      runner.nameArgs p ++ runner.claudeMountSeg p ++ runner.overlaySeg h p ++
      runner.worktreeMountSeg p ++ runner.agentMountSeg h p ++
      runner.ampMountSeg h p ++ runner.gitDirMountSeg p ++
      runner.gitcfgMountSeg h p ++ runner.sshMountSeg h p ++
      runner.ghMountSeg h p ++ runner.gpgMountSeg h p,
      runner.awsMountSeg h p ++ runner.workdirSeg p ++ runner.safeEnvSeg h ++
      runner.homeSandboxSeg p ++ runner.defaultEnvSeg h p ++
      runner.awsEnvSeg h p ++ runner.userEnvSeg h p ++ runner.portSeg p ++
      runner.imageSeg p ++ ["sleep", "infinity"], ?_⟩
    simp [runner.runArgs]
  · refine ⟨runner.baseArgs h p ++ container.LabelsToArgs p.labels ++
      runner.nameArgs p ++ runner.claudeMountSeg p ++ runner.overlaySeg h p ++
      runner.worktreeMountSeg p ++ runner.agentMountSeg h p ++
      runner.ampMountSeg h p ++ runner.gitDirMountSeg p ++
      runner.gitcfgMountSeg h p ++ runner.sshMountSeg h p ++
      runner.ghMountSeg h p ++ runner.gpgMountSeg h p ++
      runner.npmMountSeg h p,
      runner.workdirSeg p ++ runner.safeEnvSeg h ++
      runner.homeSandboxSeg p ++ runner.defaultEnvSeg h p ++
      runner.awsEnvSeg h p ++ runner.userEnvSeg h p ++ runner.portSeg p ++
      runner.imageSeg p ++ ["sleep", "infinity"], ?_⟩
    simp [runner.runArgs]

set_option maxRecDepth 8192 in
/-- Claim C9: when a running container with the computed name exists and
reconnection was not requested, step 7 returns the conflict error (no new
container is created), and the message contains the running container's
name, the concrete `packnplay run … --reconnect …` recovery line, and the
concrete `packnplay stop <name>` recovery line. -/
theorem conflict_error_names_and_recovery (st : runner.ContainerState)
    (d : runner.ContainerDetails) (reconnect : Bool)
    (name : String) (command : List String)
    (currentDir workDir worktreeName cmdBase containerID : String)
    (hfind : runner.getContainerDetails st name = some d)
    (hrec : reconnect = false) :
    runner.checkRunningContainer st reconnect name command currentDir workDir
        worktreeName cmdBase containerID =
      runner.RunDecision.conflict
        (runner.buildConflictError d command currentDir worktreeName) ∧
    d.Names.data <:+:
      (runner.buildConflictError d command currentDir worktreeName).data ∧
    ("  packnplay run" ++
        runner.buildWorktreeFlag currentDir d.HostPath worktreeName ++
        " --reconnect " ++ runner.buildCmdStr command ++ "\n").data <:+:
      (runner.buildConflictError d command currentDir worktreeName).data ∧
    ("  packnplay stop " ++ d.Names).data <:+:
      (runner.buildConflictError d command currentDir worktreeName).data := by
  have hfind' : st.find? (fun x => x.Names = name) = some d := hfind
  refine ⟨?_, ?_, ?_, ?_⟩
  · simp [runner.checkRunningContainer, runner.containerIsRunning,
      runner.getContainerDetails, hfind', hrec]
  · refine ⟨("container already running for this worktree\n\n" ++
      "Container Details:\n" ++ "  Name: ").data,
      ("\n" ++ "  Status: " ++ d.Status ++ "\n" ++ "  Project: " ++
        d.Project ++ "\n" ++ "  Worktree: " ++ d.Worktree ++ "\n" ++
        (if d.HostPath ≠ "" then "  Host Path: " ++ d.HostPath ++ "\n"
         else "") ++
        (if d.LaunchCommand ≠ "" then
          "  Original Command: " ++ d.LaunchCommand ++ "\n" else "") ++
        "\nTo run your command in the existing container:\n" ++
        "  packnplay run" ++
        runner.buildWorktreeFlag currentDir d.HostPath worktreeName ++
        " --reconnect " ++ runner.buildCmdStr command ++ "\n" ++
        "\nTo stop the existing container:\n" ++
        "  packnplay stop " ++ d.Names).data, ?_⟩
    simp [runner.buildConflictError, String.data_append, List.append_assoc]
  · refine ⟨("container already running for this worktree\n\n" ++
      "Container Details:\n" ++ "  Name: " ++ d.Names ++ "\n" ++
      "  Status: " ++ d.Status ++ "\n" ++ "  Project: " ++ d.Project ++
      "\n" ++ "  Worktree: " ++ d.Worktree ++ "\n" ++
      (if d.HostPath ≠ "" then "  Host Path: " ++ d.HostPath ++ "\n"
       else "") ++
      (if d.LaunchCommand ≠ "" then
        "  Original Command: " ++ d.LaunchCommand ++ "\n" else "") ++
      "\nTo run your command in the existing container:\n").data,
      ("\nTo stop the existing container:\n" ++
        "  packnplay stop " ++ d.Names).data, ?_⟩
    simp [runner.buildConflictError, String.data_append, List.append_assoc]
  · refine ⟨("container already running for this worktree\n\n" ++
      "Container Details:\n" ++ "  Name: " ++ d.Names ++ "\n" ++
      "  Status: " ++ d.Status ++ "\n" ++ "  Project: " ++ d.Project ++
      "\n" ++ "  Worktree: " ++ d.Worktree ++ "\n" ++
      (if d.HostPath ≠ "" then "  Host Path: " ++ d.HostPath ++ "\n"
       else "") ++
      (if d.LaunchCommand ≠ "" then
        "  Original Command: " ++ d.LaunchCommand ++ "\n" else "") ++
      "\nTo run your command in the existing container:\n" ++
      "  packnplay run" ++
      runner.buildWorktreeFlag currentDir d.HostPath worktreeName ++
      " --reconnect " ++ runner.buildCmdStr command ++ "\n" ++
      "\nTo stop the existing container:\n").data, ([] : List Char), ?_⟩
    simp [runner.buildConflictError, String.data_append, List.append_assoc]

/-- Witness for C9 at a concrete running container and a reconnect-less
invocation. -/
theorem conflict_error_names_and_recovery_witness :
    (runner.getContainerDetails [examples.conflictDetails]
        "packnplay-p-feature-x" = some examples.conflictDetails) ∧
    ((false : Bool) = false) ∧
    (runner.checkRunningContainer [examples.conflictDetails] false
        "packnplay-p-feature-x" ["claude"] "/home/u/q" "/home/u/q"
        "feature-x" "docker" "abc123" =
      runner.RunDecision.conflict
        (runner.buildConflictError examples.conflictDetails ["claude"]
          "/home/u/q" "feature-x") ∧
    examples.conflictDetails.Names.data <:+:
      (runner.buildConflictError examples.conflictDetails ["claude"]
        "/home/u/q" "feature-x").data ∧
    ("  packnplay run" ++
        runner.buildWorktreeFlag "/home/u/q"
          examples.conflictDetails.HostPath "feature-x" ++
        " --reconnect " ++ runner.buildCmdStr ["claude"] ++ "\n").data <:+:
      (runner.buildConflictError examples.conflictDetails ["claude"]
        "/home/u/q" "feature-x").data ∧
    ("  packnplay stop " ++ examples.conflictDetails.Names).data <:+:
      (runner.buildConflictError examples.conflictDetails ["claude"]
        "/home/u/q" "feature-x").data) :=
  ⟨by decide, rfl,
   conflict_error_names_and_recovery [examples.conflictDetails]
     examples.conflictDetails false "packnplay-p-feature-x" ["claude"]
     "/home/u/q" "/home/u/q" "feature-x" "docker" "abc123" (by decide) rfl⟩
